import Mathlib

/-!
Verification of the flashcard-server bootstrap (`src/main.rs`) against its
specification.  The repository's own source is the single `main.rs` file that
wires routes and shared managers; the routing engine, the responders and the
ID factory live in the external crates `webe_web`, `webe_auth` and `webe_id`,
so those behaviours are modelled from the specification while the route
table contents, the registration order and every constructor argument are
taken from `main.rs`.
-/

namespace FlashcardServer

/-- Modelled from the spec: the `webe_web` route-pattern data model is not in
this repository.  A segment matcher is `Literal(text)`, `Param(name)` (matches
exactly one non-empty path segment, binding `name → value`) or
`Wildcard(name)` (matches the remainder of the path, only as final segment). -/
inductive SegmentMatcher where
  | literal (text : String)
  | param (name : String)
  | wildcard (name : String)
  deriving DecidableEq, Repr

/-- A route pattern: one HTTP method plus an ordered sequence of segment
matchers, as in the spec's data model. -/
structure Route where
  method : String
  segments : List SegmentMatcher
  deriving DecidableEq, Repr

/-- The handler (responder) kinds constructed in `main.rs`, each carrying the
construction arguments that appear there.  `secure` is the auth-gate
decorator wrapping an inner handler. -/
inductive Handler where
  | options (allowOrigin allowMethods allowHeaders : String)
  | createAccount
  | verifyAccount
  | login
  | logout
  | decks
  | deckDetails (paramName : String)
  | createDeck
  | updateDeck
  | deleteDeck
  | createCard
  | updateCard
  | updateCardPosition
  | deleteCard
  | updateScore
  | deckScores (paramName : String)
  | file (root paramName : String)
  | spa (root entry : String)
  | secure (inner : Handler)
  deriving DecidableEq, Repr

/-- Bound parameters captured during a successful match. -/
abbrev BoundParams := List (String × String)

/-- Modelled from the spec: splitting an incoming path into `/`-separated
segments (the first step of `webe_web` route matching, which is not in this
repository). -/
def splitSegsAux : List Char → List Char → List String
  | [], acc => [String.mk acc.reverse]
  | c :: rest, acc =>
    if c = '/' then String.mk acc.reverse :: splitSegsAux rest []
    else splitSegsAux rest (c :: acc)

/-- Path-to-segments: split on `/` and drop the empty segment before the
leading slash. -/
def segsOf (p : String) : List String :=
  (splitSegsAux p.data []).drop 1

/-- Modelled from the spec: the `webe_web` matching engine is not in this
repository.  Literal segments must match exactly; a `Param` matches any
single non-empty segment and records its value; a `Wildcard` (final segment
only) matches the remainder of the path and records it as one joined value. -/
def matchSegs : List SegmentMatcher → List String → Option BoundParams
  | [], [] => some []
  | [], _ :: _ => none
  | [SegmentMatcher.wildcard n], rest => some [(n, String.intercalate "/" rest)]
  | SegmentMatcher.wildcard _ :: _ :: _, _ => none
  | SegmentMatcher.literal _ :: _, [] => none
  | SegmentMatcher.literal t :: ms, s :: ss =>
    if t = s then matchSegs ms ss else none
  | SegmentMatcher.param _ :: _, [] => none
  | SegmentMatcher.param n :: ms, s :: ss =>
    if s = "" then none else (matchSegs ms ss).map (fun bp => (n, s) :: bp)

/-- Modelled from the spec: one pattern's `match(method, path)` — no-match
immediately if the methods differ (case-sensitive), otherwise structural
segment matching. -/
def routeMatch (r : Route) (method : String) (segs : List String) : Option BoundParams :=
  if r.method = method then matchSegs r.segments segs else none

/-- Modelled from the spec: `resolve` iterates the ordered route table in
registration order and returns the first structural match. -/
def resolve : List (Route × Handler) → String → List String → Option (Handler × BoundParams)
  | [], _, _ => none
  | (r, h) :: rest, m, segs =>
    match routeMatch r m segs with
    | some bp => some (h, bp)
    | none => resolve rest m segs

/-- Resolution on raw path strings: split, then resolve. -/
def resolvePath (table : List (Route × Handler)) (method path : String) :
    Option (Handler × BoundParams) :=
  resolve table method (segsOf path)

/-- The OPTIONS preflight route of `main.rs` line 91 (`/<dump>` is the
catch-all wildcard). -/
def options_route : Route := ⟨"OPTIONS", [SegmentMatcher.wildcard "dump"]⟩

/-- The preflight responder constructed in `main.rs` lines 92–96 with its
three fixed strings. -/
def options_responder : Handler :=
  Handler.options "http://localhost:1234" "POST, GET, OPTIONS" "content-type, x-webe-token"

/-- The route table built by `main.rs` lines 89–211: every `add_route` call
in program order, with each route's template parsed into segment matchers
and each responder's construction arguments. -/
def route_map : List (Route × Handler) :=
  [ (options_route, options_responder),
    (⟨"POST", [SegmentMatcher.literal "account", SegmentMatcher.literal "create"]⟩,
      Handler.createAccount),
    (⟨"POST", [SegmentMatcher.literal "account", SegmentMatcher.literal "verify"]⟩,
      Handler.verifyAccount),
    (⟨"POST", [SegmentMatcher.literal "account", SegmentMatcher.literal "login"]⟩,
      Handler.login),
    (⟨"POST", [SegmentMatcher.literal "account", SegmentMatcher.literal "logout"]⟩,
      Handler.logout),
    (⟨"GET", [SegmentMatcher.literal "decks"]⟩,
      Handler.secure Handler.decks),
    (⟨"GET", [SegmentMatcher.literal "deck", SegmentMatcher.param "id"]⟩,
      Handler.secure (Handler.deckDetails "<id>")),
    (⟨"POST", [SegmentMatcher.literal "deck", SegmentMatcher.literal "create"]⟩,
      Handler.secure Handler.createDeck),
    (⟨"POST", [SegmentMatcher.literal "deck", SegmentMatcher.literal "rename"]⟩,
      Handler.secure Handler.updateDeck),
    (⟨"POST", [SegmentMatcher.literal "deck", SegmentMatcher.literal "delete"]⟩,
      Handler.secure Handler.deleteDeck),
    (⟨"POST", [SegmentMatcher.literal "card", SegmentMatcher.literal "create"]⟩,
      Handler.secure Handler.createCard),
    (⟨"POST", [SegmentMatcher.literal "card", SegmentMatcher.literal "update"]⟩,
      Handler.secure Handler.updateCard),
    (⟨"POST", [SegmentMatcher.literal "card", SegmentMatcher.literal "updatepos"]⟩,
      Handler.secure Handler.updateCardPosition),
    (⟨"POST", [SegmentMatcher.literal "card", SegmentMatcher.literal "delete"]⟩,
      Handler.secure Handler.deleteCard),
    (⟨"POST", [SegmentMatcher.literal "card", SegmentMatcher.literal "score"]⟩,
      Handler.secure Handler.updateScore),
    (⟨"GET", [SegmentMatcher.literal "deck", SegmentMatcher.literal "scores",
        SegmentMatcher.param "id"]⟩,
      Handler.secure (Handler.deckScores "<id>")),
    (⟨"GET", [SegmentMatcher.literal "app", SegmentMatcher.wildcard "path"]⟩,
      Handler.file "./app" "<path>"),
    (⟨"GET", [SegmentMatcher.wildcard "wildcard"]⟩,
      Handler.spa "." "app/index.html") ]

/-- The response shapes the modelled responders produce. -/
inductive Response where
  | ok (body : String)
  | notFound
  | unauthorized
  | cors (allowOrigin allowMethods allowHeaders : String)
  deriving DecidableEq, Repr

/-- Modelled from the spec: the `webe_web` SPAResponder is not in this
repository; it always returns the contents of the one fixed entry document
under its root, regardless of the requested path, and not-found when that
document is absent. -/
def spaRespond (root entry : String) (fs : String → Option String)
    (_reqPath : String) : Response :=
  match fs (root ++ "/" ++ entry) with
  | some c => Response.ok c
  | none => Response.notFound

/-- Modelled from the spec: the `webe_web` OptionsResponder is not in this
repository; constructed once with three strings, it returns a fixed response
carrying them and performs no business logic. -/
def optionsRespond (allowOrigin allowMethods allowHeaders : String)
    (_reqPath : String) : Response :=
  Response.cors allowOrigin allowMethods allowHeaders

/-- A parsed request as the auth gate sees it: headers plus the request
context slot where a resolved account identity is attached. -/
structure Request where
  headers : List (String × String)
  accountId : Option Nat
  deriving DecidableEq, Repr

/-- Modelled from the spec: outcomes of Auth-Manager token validation —
a token resolves to an account identity or fails as expired, invalid or
revoked. -/
inductive TokenOutcome where
  | valid (accountId : Nat)
  | expired
  | invalid
  | revoked
  deriving DecidableEq, Repr

/-- The designated credential header (the spec's preflight allow-headers name
it `x-webe-token`). -/
def tokenHeaderName : String := "x-webe-token"

/-- Modelled from the spec: the `webe_auth` SecureResponder decorator is not
in this repository.  It extracts the credential token from the designated
header; a missing header or failed validation short-circuits to an
authorization-failure response without consulting the inner handler; success
attaches the resolved identity to the request and delegates, returning the
inner handler's response unchanged. -/
def secureRespond (validate : String → TokenOutcome) (inner : Request → Response)
    (req : Request) : Response :=
  match req.headers.lookup tokenHeaderName with
  | none => Response.unauthorized
  | some tok =>
    match validate tok with
    | TokenOutcome.valid acct => inner { req with accountId := some acct }
    | _ => Response.unauthorized

/-- The startup events of `main()` in program order: one `add_route` call per
table entry (lines 97–211), then `server.start(route_map)` (line 216). -/
inductive MainEvent where
  | addRoute (r : Route) (h : Handler)
  | serverStart
  deriving DecidableEq, Repr

/-- The straight-line event trace of `main()`: every route registration, in
registration order, followed by the server start. -/
def mainTrace : List MainEvent :=
  route_map.map (fun e => MainEvent.addRoute e.1 e.2) ++ [MainEvent.serverStart]

/-- Modelled from the spec: the `webe_id` WebeIDFactory state — a fixed epoch
and node id plus the `last_timestamp` and `sequence_counter` mutated under
the exclusive lock on every ID request. -/
structure WebeIDFactory where
  epoch : Nat
  nodeId : Nat
  lastTimestamp : Nat
  sequence : Nat
  deriving DecidableEq, Repr

/-- Modelled from the spec: the snowflake-style ID layout — derived from the
fixed epoch, the node identifier and the per-millisecond sequence counter;
the sequence occupies the low digits, the node id the middle, the elapsed
milliseconds the high digits. -/
def composeId (epoch nodeId maxSeq now seq : Nat) : Nat :=
  (now - epoch) * ((maxSeq + 1) * 256) + nodeId * (maxSeq + 1) + seq

/-- Modelled from the spec: one ID request under the factory's exclusive
lock.  The current timestamp is compared against `last_timestamp`; on
collision the sequence counter increments, failing past the exchange-defined
maximum sequence per millisecond; a clock running backwards fails
deterministically. -/
def WebeIDFactory.next (maxSeq : Nat) (f : WebeIDFactory) (now : Nat) :
    Option (Nat × WebeIDFactory) :=
  if now < f.lastTimestamp then none
  else if now = f.lastTimestamp then
    if f.sequence + 1 > maxSeq then none
    else some (composeId f.epoch f.nodeId maxSeq now (f.sequence + 1),
      { f with sequence := f.sequence + 1 })
  else some (composeId f.epoch f.nodeId maxSeq now 0,
    { f with lastTimestamp := now, sequence := 0 })

/-- `N` sequential ID requests, all issued at the same millisecond `now`;
fails if any single request fails. -/
def runSameMs (maxSeq : Nat) (f : WebeIDFactory) (now : Nat) :
    Nat → Option (List Nat × WebeIDFactory)
  | 0 => some ([], f)
  | n + 1 =>
    match f.next maxSeq now with
    | none => none
    | some (i, f₁) =>
      match runSameMs maxSeq f₁ now n with
      | none => none
      | some (ids, f₂) => some (i :: ids, f₂)

/-- The two shared managers constructed in `main.rs`: the auth manager
(line 53) and the flash manager (line 68), each behind `Arc<Mutex<...>>`. -/
inductive ManagerTag where
  | auth
  | flash
  deriving DecidableEq, Repr

/-- Which requests are currently inside each manager's critical section. -/
structure ManagerLockState where
  authHolders : List Nat
  flashHolders : List Nat
  deriving DecidableEq, Repr

/-- The critical-section occupants of one manager. -/
def ManagerLockState.holders (s : ManagerLockState) : ManagerTag → List Nat
  | ManagerTag.auth => s.authHolders
  | ManagerTag.flash => s.flashHolders

/-- Replace the critical-section occupants of one manager. -/
def ManagerLockState.setHolders (s : ManagerLockState) :
    ManagerTag → List Nat → ManagerLockState
  | ManagerTag.auth, l => { s with authHolders := l }
  | ManagerTag.flash, l => { s with flashHolders := l }

/-- Modelled from the spec: the exclusive-access wrapper (`tokio::sync::Mutex`)
is not in this repository.  A request enters a manager's critical section
only when no request currently holds that manager's lock, and leaves it by
releasing. -/
inductive ManagerStep : ManagerLockState → ManagerLockState → Prop
  | acquire (m : ManagerTag) (r : Nat) (s : ManagerLockState) :
      s.holders m = [] → ManagerStep s (s.setHolders m (r :: s.holders m))
  | release (m : ManagerTag) (r : Nat) (s : ManagerLockState) :
      ManagerStep s (s.setHolders m ((s.holders m).erase r))

/-- At startup no request holds either manager. -/
def initLockState : ManagerLockState := ⟨[], []⟩

/-- States the serving process can reach by interleaved acquires and
releases. -/
def lockReachable (s : ManagerLockState) : Prop :=
  Relation.ReflTransGen ManagerStep initLockState s

/-- Modelled from the spec: the `webe_web` FileResponder traversal guard —
the bound path's segments are resolved against a stack: `..` pops, `.` and
empty segments are skipped, and a `..` with nothing left to pop escapes the
root and is rejected. -/
def resolveSegsAux : List String → List String → Option (List String)
  | [], acc => some acc.reverse
  | s :: rest, acc =>
    if s = ".." then
      match acc with
      | [] => none
      | _ :: acc' => resolveSegsAux rest acc'
    else if s = "." ∨ s = "" then resolveSegsAux rest acc
    else resolveSegsAux rest (s :: acc)

/-- The root directory of the FileResponder constructed in `main.rs`
line 203 (`./app`), as segments. -/
def appRootSegs : List String := [".", "app"]

/-- Modelled from the spec: the `webe_web` FileResponder is not in this
repository.  It resolves the bound path under its fixed root, rejects any
resolution that escapes the root, and responds not-found when the resolved
file is absent. -/
def fileRespond (rootSegs : List String) (fs : List String → Option String)
    (pathSegs : List String) : Response :=
  match resolveSegsAux pathSegs [] with
  | none => Response.notFound
  | some rel =>
    match fs (rootSegs ++ rel) with
    | some c => Response.ok c
    | none => Response.notFound

/-- An `Arc` allocation handle: `alloc` is the allocation identity, and
`clone` (as `Arc::clone`) yields a handle to the same allocation. -/
structure ArcHandle (α : Type) where
  alloc : Nat
  value : α
  deriving DecidableEq, Repr

/-- Cloning an `Arc` handle shares the allocation. -/
def ArcHandle.clone {α : Type} (h : ArcHandle α) : ArcHandle α := h

/-- The ID-factory configuration of `main.rs` lines 43–50: node id `0u8` and
epoch `UNIX_EPOCH + 1546300800000 ms`. -/
structure IDFactoryConfig where
  node_id : Nat
  epochOffsetMs : Nat
  deriving DecidableEq, Repr

/-- The one ID factory, allocated once (`main.rs` lines 48–50). -/
def id_factory : ArcHandle IDFactoryConfig := ⟨0, ⟨0, 1546300800000⟩⟩

/-- The auth manager construction (`main.rs` lines 52–57): it holds a clone
of the shared ID factory (db and email collaborators are out of scope). -/
structure WebeAuth where
  id_factory : ArcHandle IDFactoryConfig
  deriving DecidableEq, Repr

/-- `main.rs` line 53: the auth manager takes `id_factory.clone()`. -/
def auth_manager : WebeAuth := ⟨id_factory.clone⟩

/-- The flash manager construction (`main.rs` lines 67–71). -/
structure FlashManager where
  id_factory : ArcHandle IDFactoryConfig
  deriving DecidableEq, Repr

/-- `main.rs` line 68: the flash manager takes `id_factory.clone()`. -/
def flash_manager : FlashManager := ⟨id_factory.clone⟩

/-- Handler categories as the spec's route-surface table names them. -/
inductive HandlerCategory where
  | corsPreflight
  | publicAccount
  | authGated
  | business
  | staticFile
  | spaFallback
  deriving DecidableEq, Repr

/-- The category a constructed handler belongs to; a bare business handler
(reached only when not wrapped by the auth gate) is `business`. -/
def Handler.category : Handler → HandlerCategory
  | Handler.options _ _ _ => HandlerCategory.corsPreflight
  | Handler.createAccount => HandlerCategory.publicAccount
  | Handler.verifyAccount => HandlerCategory.publicAccount
  | Handler.login => HandlerCategory.publicAccount
  | Handler.logout => HandlerCategory.publicAccount
  | Handler.file _ _ => HandlerCategory.staticFile
  | Handler.spa _ _ => HandlerCategory.spaFallback
  | Handler.secure _ => HandlerCategory.authGated
  | _ => HandlerCategory.business

/-- The route surface exactly as the spec's section-6 table lists it, written
from the spec's words for comparison with the table built by `main.rs`. -/
def spec_route_surface : List (String × List SegmentMatcher × HandlerCategory) :=
  [ ("OPTIONS", [SegmentMatcher.wildcard "dump"], HandlerCategory.corsPreflight),
    ("POST", [SegmentMatcher.literal "account", SegmentMatcher.literal "create"],
      HandlerCategory.publicAccount),
    ("POST", [SegmentMatcher.literal "account", SegmentMatcher.literal "verify"],
      HandlerCategory.publicAccount),
    ("POST", [SegmentMatcher.literal "account", SegmentMatcher.literal "login"],
      HandlerCategory.publicAccount),
    ("POST", [SegmentMatcher.literal "account", SegmentMatcher.literal "logout"],
      HandlerCategory.publicAccount),
    ("GET", [SegmentMatcher.literal "decks"], HandlerCategory.authGated),
    ("GET", [SegmentMatcher.literal "deck", SegmentMatcher.param "id"],
      HandlerCategory.authGated),
    ("POST", [SegmentMatcher.literal "deck", SegmentMatcher.literal "create"],
      HandlerCategory.authGated),
    ("POST", [SegmentMatcher.literal "deck", SegmentMatcher.literal "rename"],
      HandlerCategory.authGated),
    ("POST", [SegmentMatcher.literal "deck", SegmentMatcher.literal "delete"],
      HandlerCategory.authGated),
    ("POST", [SegmentMatcher.literal "card", SegmentMatcher.literal "create"],
      HandlerCategory.authGated),
    ("POST", [SegmentMatcher.literal "card", SegmentMatcher.literal "update"],
      HandlerCategory.authGated),
    ("POST", [SegmentMatcher.literal "card", SegmentMatcher.literal "updatepos"],
      HandlerCategory.authGated),
    ("POST", [SegmentMatcher.literal "card", SegmentMatcher.literal "delete"],
      HandlerCategory.authGated),
    ("POST", [SegmentMatcher.literal "card", SegmentMatcher.literal "score"],
      HandlerCategory.authGated),
    ("GET", [SegmentMatcher.literal "deck", SegmentMatcher.literal "scores",
      SegmentMatcher.param "id"], HandlerCategory.authGated),
    ("GET", [SegmentMatcher.literal "app", SegmentMatcher.wildcard "path"],
      HandlerCategory.staticFile),
    ("GET", [SegmentMatcher.wildcard "wildcard"], HandlerCategory.spaFallback) ]

end FlashcardServer

namespace FlashcardServer

/-- C1: a GET request to `/deck/42` — and any request whose segments
structurally match the template `/deck/<id>` — resolves to the auth-gated
deck-detail handler with `id` bound to the matched segment, and never to the
SPA wildcard fallback, because `GET /deck/<id>` precedes the catch-all in
the registration order of `route_map`. -/
theorem deck_detail_resolution (x : String) (hx : x ≠ "") :
    resolvePath route_map "GET" "/deck/42" =
      some (Handler.secure (Handler.deckDetails "<id>"), [("id", "42")]) ∧
    resolve route_map "GET" ["deck", x] =
      some (Handler.secure (Handler.deckDetails "<id>"), [("id", x)]) ∧
    ∀ bp, resolve route_map "GET" ["deck", x] ≠
      some (Handler.spa "." "app/index.html", bp) := by
  have hres : resolve route_map "GET" ["deck", x] =
      some (Handler.secure (Handler.deckDetails "<id>"), [("id", x)]) := by
    simp [route_map, resolve, routeMatch, matchSegs, options_route, hx]
  refine ⟨by decide, hres, ?_⟩
  intro bp h
  rw [hres] at h
  simp at h

/-- Witness for C1 at the concrete segment `42`. -/
theorem deck_detail_resolution_witness :
    resolve route_map "GET" ["deck", "42"] =
      some (Handler.secure (Handler.deckDetails "<id>"), [("id", "42")]) :=
  (deck_detail_resolution "42" (by decide)).2.1

/-- C3: the route table built at startup carries exactly the spec's route
surface — methods, segment patterns and handler categories in order — and in
particular registers the session routes only at `/account/login` and
`/account/logout`, with no top-level `/login` or `/logout` route. -/
theorem route_surface_exact :
    route_map.map (fun e => (e.1.method, e.1.segments, e.2.category)) =
      spec_route_surface ∧
    ∀ e ∈ route_map, e.1.segments ≠ [SegmentMatcher.literal "login"] ∧
      e.1.segments ≠ [SegmentMatcher.literal "logout"] := by
  exact ⟨by decide, by decide⟩

/-- Witness for C3 at the first table entry. -/
theorem route_surface_exact_witness :
    options_route.segments ≠ [SegmentMatcher.literal "login"] :=
  (route_surface_exact.2 (options_route, options_responder) (by decide)).1

/-- C6: the preflight responder constructed in `main.rs` returns identical
responses for any two requested paths, carrying the fixed configured
allow-methods and allow-headers values. -/
theorem preflight_idempotent_fixed (p q : String) :
    route_map.head? = some (options_route, options_responder) ∧
    optionsRespond "http://localhost:1234" "POST, GET, OPTIONS"
        "content-type, x-webe-token" p =
      optionsRespond "http://localhost:1234" "POST, GET, OPTIONS"
        "content-type, x-webe-token" q ∧
    optionsRespond "http://localhost:1234" "POST, GET, OPTIONS"
        "content-type, x-webe-token" p =
      Response.cors "http://localhost:1234" "POST, GET, OPTIONS"
        "content-type, x-webe-token" :=
  ⟨rfl, rfl, rfl⟩

/-- C10: both managers hold clones of the one `Arc`-wrapped ID factory
allocation, whose configuration is node id `0` and epoch
`UNIX_EPOCH + 1546300800000 ms`. -/
theorem shared_id_factory :
    auth_manager.id_factory = id_factory ∧
    flash_manager.id_factory = id_factory ∧
    auth_manager.id_factory.alloc = flash_manager.id_factory.alloc ∧
    id_factory.value.node_id = 0 ∧
    id_factory.value.epochOffsetMs = 1546300800000 :=
  ⟨rfl, rfl, rfl, rfl, rfl⟩

/-- C4: in the startup trace of `main()`, every route registration event
precedes the server-start event, so the route table is complete and fixed
before the server begins accepting connections. -/
theorem routes_added_before_start :
    ∀ i j : Fin mainTrace.length,
      mainTrace.get i ≠ MainEvent.serverStart →
      mainTrace.get j = MainEvent.serverStart →
      (i : Nat) < (j : Nat) := by decide

/-- Witness for C4 at the first registration and the start event. -/
theorem routes_added_before_start_witness :
    ((⟨0, by decide⟩ : Fin mainTrace.length) : Nat) <
      ((⟨18, by decide⟩ : Fin mainTrace.length) : Nat) :=
  routes_added_before_start ⟨0, by decide⟩ ⟨18, by decide⟩ (by decide) (by decide)

/-- C2: the auth-gate decorator short-circuits to an authorization failure —
independently of the wrapped handler, which is therefore never invoked —
whenever the credential header is missing or its token fails validation
(expired, invalid or revoked), and returns the inner handler's response,
with the resolved identity attached to the request, when validation
succeeds. -/
theorem auth_gate_shortcircuit (validate : String → TokenOutcome)
    (inner inner' : Request → Response) (req : Request) :
    (req.headers.lookup tokenHeaderName = none →
      secureRespond validate inner req = Response.unauthorized ∧
      secureRespond validate inner req = secureRespond validate inner' req) ∧
    (∀ tok, req.headers.lookup tokenHeaderName = some tok →
      (∀ a, validate tok ≠ TokenOutcome.valid a) →
      secureRespond validate inner req = Response.unauthorized ∧
      secureRespond validate inner req = secureRespond validate inner' req) ∧
    (∀ tok acct, req.headers.lookup tokenHeaderName = some tok →
      validate tok = TokenOutcome.valid acct →
      secureRespond validate inner req =
        inner { req with accountId := some acct }) := by
  refine ⟨?_, ?_, ?_⟩
  · intro h
    simp only [secureRespond, h]
    exact ⟨trivial, trivial⟩
  · intro tok h hnv
    simp only [secureRespond, h]
    cases hv : validate tok with
    | valid a => exact absurd hv (hnv a)
    | expired => exact ⟨trivial, trivial⟩
    | invalid => exact ⟨trivial, trivial⟩
    | revoked => exact ⟨trivial, trivial⟩
  · intro tok acct h hv
    simp only [secureRespond, h, hv]

/-- Witness for C2: a request with no headers is rejected without the inner
handler's response appearing. -/
theorem auth_gate_shortcircuit_witness :
    secureRespond (fun _ => TokenOutcome.expired) (fun _ => Response.ok "inner")
      ⟨[], none⟩ = Response.unauthorized :=
  ((auth_gate_shortcircuit (fun _ => TokenOutcome.expired)
      (fun _ => Response.ok "inner") (fun _ => Response.notFound)
      ⟨[], none⟩).1 rfl).1

/-- C5: the SPA fallback route `GET /<wildcard>` is the last (lowest
precedence) entry of the route table, and its responder returns the contents
of the one fixed entry document `app/index.html` under root `.`, identically
for every requested path. -/
theorem spa_fallback_last_fixed (fs : String → Option String) (p q c : String)
    (h : fs "./app/index.html" = some c) :
    route_map.getLast? = some (⟨"GET", [SegmentMatcher.wildcard "wildcard"]⟩,
      Handler.spa "." "app/index.html") ∧
    spaRespond "." "app/index.html" fs p = spaRespond "." "app/index.html" fs q ∧
    spaRespond "." "app/index.html" fs p = Response.ok c := by
  refine ⟨by decide, rfl, ?_⟩
  unfold spaRespond
  rw [show ("." ++ "/" ++ "app/index.html" : String) = "./app/index.html" from by decide, h]

/-- Witness for C5 with a one-file filesystem. -/
theorem spa_fallback_last_fixed_witness :
    spaRespond "." "app/index.html"
      (fun s => if s = "./app/index.html" then some "entry" else none) "/foo" =
      Response.ok "entry" :=
  (spa_fallback_last_fixed
      (fun s => if s = "./app/index.html" then some "entry" else none)
      "/foo" "/bar" "entry" (by decide)).2.2

end FlashcardServer

namespace FlashcardServer

/-- Characterization of a run of sequential ID requests at one millisecond,
starting from a factory whose last timestamp already equals that
millisecond: the IDs are the compositions at consecutive sequence values. -/
theorem runSameMs_eq (maxSeq now : Nat) :
    ∀ (n : Nat) (f : WebeIDFactory), f.lastTimestamp = now →
    ∀ ids f', runSameMs maxSeq f now n = some (ids, f') →
    ids = (List.range' (f.sequence + 1) n).map
      (fun s => composeId f.epoch f.nodeId maxSeq now s) ∧
    f' = { f with sequence := f.sequence + n } := by
  intro n
  induction n with
  | zero =>
    intro f hf ids f' h
    simp only [runSameMs, Option.some.injEq, Prod.mk.injEq] at h
    obtain ⟨h1, h2⟩ := h
    subst h1
    subst h2
    refine ⟨by simp, ?_⟩
    cases f
    rfl
  | succ n ih =>
    intro f hf ids f' h
    by_cases hover : f.sequence + 1 > maxSeq
    · have hnext : f.next maxSeq now = none := by
        unfold WebeIDFactory.next
        rw [hf]
        simp [hover]
      simp only [runSameMs, hnext] at h
      exact Option.noConfusion h
    · have hnext : f.next maxSeq now =
          some (composeId f.epoch f.nodeId maxSeq now (f.sequence + 1),
            { f with sequence := f.sequence + 1 }) := by
        unfold WebeIDFactory.next
        rw [hf]
        simp [hover]
      simp only [runSameMs, hnext] at h
      cases hrec : runSameMs maxSeq { f with sequence := f.sequence + 1 } now n with
      | none => rw [hrec] at h; simp at h
      | some p =>
        obtain ⟨ids₂, f₂⟩ := p
        rw [hrec] at h
        simp only [Option.some.injEq, Prod.mk.injEq] at h
        obtain ⟨hids, hf2⟩ := h
        have hrec2 := ih { f with sequence := f.sequence + 1 } hf ids₂ f₂ hrec
        obtain ⟨hids₂, hf₂⟩ := hrec2
        constructor
        · rw [← hids, hids₂, List.range'_succ, List.map_cons]
        · rw [← hf2, hf₂]
          have hn : f.sequence + 1 + n = f.sequence + (n + 1) := by omega
          simp [hn]

/-- At one fixed millisecond the composed ID is strictly monotone in the
sequence counter. -/
theorem composeId_strictMono (epoch nodeId maxSeq now : Nat) {a b : Nat} (hab : a < b) :
    composeId epoch nodeId maxSeq now a < composeId epoch nodeId maxSeq now b := by
  unfold composeId
  omega

/-- C7: any number of sequential ID requests issued within the same
millisecond that all succeed yield pairwise distinct, strictly increasing
IDs — the factory compares the timestamp against `last_timestamp` and
increments the sequence counter on collision under its exclusive lock. -/
theorem ids_same_ms_monotone (maxSeq : Nat) (f : WebeIDFactory) (now N : Nat)
    (ids : List Nat) (f' : WebeIDFactory)
    (h : runSameMs maxSeq f now N = some (ids, f')) :
    ids.Pairwise (· < ·) ∧ ids.Pairwise (· ≠ ·) := by
  have key : ∃ s k, ids = (List.range' s k).map
      (fun t => composeId f.epoch f.nodeId maxSeq now t) := by
    cases N with
    | zero =>
      simp only [runSameMs, Option.some.injEq, Prod.mk.injEq] at h
      exact ⟨0, 0, by simp [← h.1]⟩
    | succ n =>
      rcases Nat.lt_trichotomy now f.lastTimestamp with hlt | heq | hgt
      · have hnext : f.next maxSeq now = none := by
          unfold WebeIDFactory.next
          rw [if_pos hlt]
        simp only [runSameMs, hnext] at h
        exact Option.noConfusion h
      · obtain ⟨hids, -⟩ := runSameMs_eq maxSeq now (n + 1) f heq.symm ids f' h
        exact ⟨f.sequence + 1, n + 1, hids⟩
      · have h1 : ¬ now < f.lastTimestamp := by omega
        have h2 : ¬ now = f.lastTimestamp := by omega
        have hnext : f.next maxSeq now =
            some (composeId f.epoch f.nodeId maxSeq now 0,
              { f with lastTimestamp := now, sequence := 0 }) := by
          unfold WebeIDFactory.next
          rw [if_neg h1, if_neg h2]
        simp only [runSameMs, hnext] at h
        cases hrec : runSameMs maxSeq { f with lastTimestamp := now, sequence := 0 } now n with
        | none => rw [hrec] at h; simp at h
        | some p =>
          obtain ⟨ids₂, f₂⟩ := p
          rw [hrec] at h
          simp only [Option.some.injEq, Prod.mk.injEq] at h
          obtain ⟨hids, -⟩ := h
          obtain ⟨hids₂, -⟩ :=
            runSameMs_eq maxSeq now n { f with lastTimestamp := now, sequence := 0 }
              rfl ids₂ f₂ hrec
          refine ⟨0, n + 1, ?_⟩
          rw [← hids, hids₂, List.range'_succ, List.map_cons]
  obtain ⟨s, k, hids⟩ := key
  have hlt : ids.Pairwise (· < ·) := by
    rw [hids]
    exact (List.pairwise_lt_range' s k).map _
      (fun a b hab => composeId_strictMono f.epoch f.nodeId maxSeq now hab)
  exact ⟨hlt, hlt.imp Nat.ne_of_lt⟩

/-- Witness for C7: three requests at millisecond 5 from a fresh factory. -/
theorem ids_same_ms_monotone_witness :
    ([composeId 0 0 4095 5 1, composeId 0 0 4095 5 2,
        composeId 0 0 4095 5 3].Pairwise (· < ·)) ∧
    ([composeId 0 0 4095 5 1, composeId 0 0 4095 5 2,
        composeId 0 0 4095 5 3].Pairwise (· ≠ ·)) :=
  ids_same_ms_monotone 4095 ⟨0, 0, 5, 0⟩ 5 3
    [composeId 0 0 4095 5 1, composeId 0 0 4095 5 2, composeId 0 0 4095 5 3]
    ⟨0, 0, 5, 3⟩ (by decide)

/-- C8: under the exclusive-access discipline of the two `Arc<Mutex<...>>`
managers built in `main.rs`, every state the serving process can reach has
at most one in-flight request inside each manager's critical section. -/
theorem manager_mutual_exclusion (s : ManagerLockState) (h : lockReachable s) :
    s.authHolders.length ≤ 1 ∧ s.flashHolders.length ≤ 1 := by
  induction h with
  | refl => exact ⟨by decide, by decide⟩
  | @tail b c hsteps hstep ih =>
    cases hstep with
    | acquire m r _ hempty =>
      cases m with
      | auth =>
        simp only [ManagerLockState.holders] at hempty
        simp only [ManagerLockState.setHolders, ManagerLockState.holders, hempty]
        exact ⟨by simp, ih.2⟩
      | flash =>
        simp only [ManagerLockState.holders] at hempty
        simp only [ManagerLockState.setHolders, ManagerLockState.holders, hempty]
        exact ⟨ih.1, by simp⟩
    | release m r _ =>
      cases m with
      | auth =>
        simp only [ManagerLockState.setHolders, ManagerLockState.holders]
        exact ⟨le_trans ((b.authHolders.erase_sublist r).length_le) ih.1, ih.2⟩
      | flash =>
        simp only [ManagerLockState.setHolders, ManagerLockState.holders]
        exact ⟨ih.1, le_trans ((b.flashHolders.erase_sublist r).length_le) ih.2⟩

/-- Witness for C8: the state after request 7 acquires the auth manager. -/
theorem manager_mutual_exclusion_witness :
    (ManagerLockState.mk [7] []).authHolders.length ≤ 1 ∧
    (ManagerLockState.mk [7] []).flashHolders.length ≤ 1 :=
  manager_mutual_exclusion ⟨[7], []⟩
    (Relation.ReflTransGen.single (ManagerStep.acquire ManagerTag.auth 7 initLockState rfl))

/-- Resolution never leaves a `..`, `.` or empty segment in its output when
the accumulator is clean, so a successful resolution cannot climb out of the
directory it is joined onto. -/
theorem resolveSegsAux_clean (segs : List String) :
    ∀ acc out, (∀ x ∈ acc, x ≠ ".." ∧ x ≠ "." ∧ x ≠ "") →
    resolveSegsAux segs acc = some out →
    ∀ x ∈ out, x ≠ ".." ∧ x ≠ "." ∧ x ≠ "" := by
  induction segs with
  | nil =>
    intro acc out hacc h x hx
    simp only [resolveSegsAux, Option.some.injEq] at h
    subst h
    exact hacc x (List.mem_reverse.mp hx)
  | cons s rest ih =>
    intro acc out hacc h x hx
    simp only [resolveSegsAux] at h
    by_cases hdd : s = ".."
    · rw [if_pos hdd] at h
      cases acc with
      | nil => exact Option.noConfusion h
      | cons a acc' =>
        exact ih acc' out (fun y hy => hacc y (List.mem_cons_of_mem a hy)) h x hx
    · rw [if_neg hdd] at h
      by_cases hde : s = "." ∨ s = ""
      · rw [if_pos hde] at h
        exact ih acc out hacc h x hx
      · rw [if_neg hde] at h
        push_neg at hde
        refine ih (s :: acc) out ?_ h x hx
        intro y hy
        rcases List.mem_cons.mp hy with rfl | hy
        · exact ⟨hdd, hde.1, hde.2⟩
        · exact hacc y hy

/-- C9: the `GET /app/<path>` entry carries the fixed root `./app`; any
served file lies under that root — the resolved relative segments contain no
`..`, `.` or empty component — a resolution that escapes the root is
rejected with not-found rather than served, and an absent file yields
not-found rather than a failure. -/
theorem static_file_guard :
    route_map[16]? = some (⟨"GET", [SegmentMatcher.literal "app",
      SegmentMatcher.wildcard "path"]⟩, Handler.file "./app" "<path>") ∧
    (∀ fs segs c, fileRespond appRootSegs fs segs = Response.ok c →
      ∃ rel, (∀ x ∈ rel, x ≠ ".." ∧ x ≠ "." ∧ x ≠ "") ∧
        fs (appRootSegs ++ rel) = some c) ∧
    (∀ (fs : List String → Option String) segs, resolveSegsAux segs [] = none →
      fileRespond appRootSegs fs segs = Response.notFound) ∧
    (∀ fs segs rel, resolveSegsAux segs [] = some rel →
      fs (appRootSegs ++ rel) = none →
      fileRespond appRootSegs fs segs = Response.notFound) := by
  refine ⟨by decide, ?_, ?_, ?_⟩
  · intro fs segs c h
    unfold fileRespond at h
    cases hres : resolveSegsAux segs [] with
    | none =>
      simp only [hres] at h
      exact Response.noConfusion h
    | some rel =>
      simp only [hres] at h
      cases hfs : fs (appRootSegs ++ rel) with
      | none =>
        simp only [hfs] at h
        exact Response.noConfusion h
      | some c' =>
        simp only [hfs, Response.ok.injEq] at h
        subst h
        exact ⟨rel, resolveSegsAux_clean segs [] rel (by simp) hres, hfs⟩
  · intro fs segs h
    unfold fileRespond
    rw [h]
  · intro fs segs rel h hfs
    unfold fileRespond
    rw [h]
    simp only [hfs]

/-- Witness for C9: a traversal attempt is rejected and an in-root file is
served from under the root. -/
theorem static_file_guard_witness :
    fileRespond appRootSegs (fun _ => none) ["..", "x"] = Response.notFound ∧
    (∃ rel, (∀ x ∈ rel, x ≠ ".." ∧ x ≠ "." ∧ x ≠ "") ∧
      (fun l => if l = [".", "app", "style.css"] then some "body" else none)
        (appRootSegs ++ rel) = some "body") :=
  ⟨static_file_guard.2.2.1 (fun _ => none) ["..", "x"] (by decide),
   static_file_guard.2.1
     (fun l => if l = [".", "app", "style.css"] then some "body" else none)
     ["style.css"] "body" (by decide)⟩

end FlashcardServer
